import Mathlib

/-!
Verification of the segment-resynchronization core of `src/Bot.py`.

Times and durations are modelled as exact rationals (`ℚ`); an audio
waveform is abstracted to its sample count and sample rate, which is all
the timing claims depend on.  File-system paths are abstracted away:
`change_audio_speed(src, dst, rate)` is modelled as a function from the
waveform loaded from `src` to the waveform written to `dst`, paired with
the returned realized duration `len(y_out) / sr`.
-/

/-- A waveform as loaded by `librosa.load(path, sr=None)`: its number of
samples and its sample rate. -/
structure Audio where
  samples : ℕ
  sampleRate : ℕ
  deriving DecidableEq, Repr

/-- Duration in seconds of a waveform, `len(y) / sr`. -/
def Audio.duration (a : Audio) : ℚ := (a.samples : ℚ) / (a.sampleRate : ℚ)

/-- The Time-Stretch Engine's error taxonomy (spec §4.1 / §7). -/
inductive StretchError where
  | invalidRate
  | emptyAudio
  deriving DecidableEq, Repr

/-- Embeds `change_audio_speed` (Bot.py lines 46–50).  The function body
delegates the stretch itself to `librosa.effects.time_stretch`, an external
library; its behaviour is modelled from the spec's Time-Stretch Engine
contract (§4.1): it fails with `InvalidRateError` when `rate <= 0` (librosa
checks the rate first), fails with `EmptyAudioError` when the waveform has
zero samples, and otherwise produces an output of `round(len(y) / rate)`
samples at the unchanged sample rate.  The returned rational is the
realized duration `len(y_out) / sr` computed on line 50. -/
def change_audio_speed (a : Audio) (rate : ℚ) : Except StretchError (Audio × ℚ) :=
  if rate ≤ 0 then .error .invalidRate
  else if a.samples = 0 then .error .emptyAudio
  else
    let outSamples : ℕ := (round ((a.samples : ℚ) / rate)).toNat
    .ok (⟨outSamples, a.sampleRate⟩, (outSamples : ℚ) / (a.sampleRate : ℚ))

/-- A transcript segment as consumed by the loop on line 81: its start and
end timestamps (`s["start"]`, `s["end"]`) and its text.  The end field is
named `stop` because `end` is reserved in Lean. -/
structure Segment where
  start : ℚ
  stop : ℚ
  text : String
  deriving DecidableEq, Repr

/-- A video subclip `vid.subclipped(st, en)` together with the playback
speed factor applied to it.  `speed = 1` means the subclip is unmodified;
`v_clip.with_effects([MultiplySpeed(factor=f)])` sets `speed = f`.  Per
moviepy's `MultiplySpeed` semantics, a clip whose playback speed is
multiplied by `f` has visual duration `(stop - start) / f`. -/
structure VideoClip where
  start : ℚ
  stop : ℚ
  speed : ℚ
  deriving DecidableEq, Repr

/-- Visual duration of a (possibly speed-adjusted) video subclip. -/
def VideoClip.duration (v : VideoClip) : ℚ := (v.stop - v.start) / v.speed

/-- The four ways one iteration of the segment loop (lines 81–120) can end:
`halt` is the `break` on line 84 (segment starts at or past clip duration),
`skip` is the `continue` on line 88 (non-positive clipped duration),
`fault e` is an exception raised by a stretch call propagating out of the
loop, and `pair v a` is a normal iteration appending one video clip and one
audio clip (lines 116–117). -/
inductive SegOutcome where
  | halt
  | skip
  | fault (e : StretchError)
  | pair (v : VideoClip) (a : Audio)
  deriving DecidableEq, Repr

/-- Embeds the body of the segment loop (Bot.py lines 82–117) for one
segment.  `synth` is the synthesized waveform for the segment's translated
text, i.e. the contents of `wav_in` (the gTTS output re-encoded as wav);
translation and synthesis themselves are external black boxes.  Mirrors the
source: clip `end` to the video duration, recompute `dur`, drop degenerate
segments, stretch the synthesized audio by the 1.10 baseline, then Case A
(`fast_len <= dur`: second stretch at `rate = fast_len / dur`, video subclip
unmodified) or Case B (audio as-is, video subclip run through
`MultiplySpeed(factor=slow)` when `slow = dur / fast_len < 1`). -/
def processSegment (clipDuration : ℚ) (seg : Segment) (synth : Audio) : SegOutcome :=
  if clipDuration ≤ seg.start then .halt
  else
    let en := min seg.stop clipDuration
    let dur := en - seg.start
    if dur ≤ 0 then .skip
    else
      match change_audio_speed synth (11/10) with
      | .error e => .fault e
      | .ok (fastAudio, fastLen) =>
        if fastLen ≤ dur then
          match change_audio_speed fastAudio (fastLen / dur) with
          | .error e => .fault e
          | .ok (adjAudio, _) => .pair ⟨seg.start, en, 1⟩ adjAudio
        else
          let slow := dur / fastLen
          if slow < 1 then .pair ⟨seg.start, en, slow⟩ fastAudio
          else .pair ⟨seg.start, en, 1⟩ fastAudio

/-- Embeds the whole segment loop (Bot.py lines 80–120): the lists
`v_clips` and `a_clips` accumulated over the input segments, each paired
with its synthesized waveform.  A `halt` outcome stops the loop (the
`break`), a `skip` outcome continues with the remaining segments, and a
`fault` aborts the whole run with the raised error. -/
def processLoop (clipDuration : ℚ) : List (Segment × Audio) → Except StretchError (List VideoClip × List Audio)
  | [] => .ok ([], [])
  | (seg, au) :: rest =>
    match processSegment clipDuration seg au with
    | .halt => .ok ([], [])
    | .skip => processLoop clipDuration rest
    | .fault e => .error e
    | .pair v a =>
      match processLoop clipDuration rest with
      | .error e => .error e
      | .ok (vs, aus) => .ok (v :: vs, a :: aus)

/-- The Timeline Assembler's internal-consistency fault (spec §4.3). -/
inductive AssemblyError where
  | lengthMismatch
  deriving DecidableEq, Repr

/-- Modelled from the spec: the Timeline Assembler's length-mismatch check
(§4.3) — the concatenation itself is performed by moviepy (lines 122–124),
outside this repository.  It pairs the video and audio clip sequences in
order and fails with `AssemblyError` when their lengths differ. -/
def assemble (vs : List VideoClip) (aus : List Audio) :
    Except AssemblyError (List (VideoClip × Audio)) :=
  if vs.length = aus.length then .ok (vs.zip aus) else .error .lengthMismatch

/-- The final muxed file abstracted to its byte size. -/
structure Artifact where
  sizeBytes : ℕ
  deriving DecidableEq, Repr

/-- Bot.py line 144: the delivery size ceiling. -/
def MAX_SIZE : ℕ := 49 * 1024 * 1024

/-- Embeds the size-governor logic of `worker` (Bot.py lines 183–189):
measure the artifact, and if it exceeds the limit run `compress_video`
exactly once, delivering its output without re-checking the size.
`compress` abstracts `compress_video` (lines 53–67), whose resulting byte
size is decided by the external encoder. -/
def ensureUnderLimit (compress : Artifact → Artifact) (limit : ℕ) (artifact : Artifact) : Artifact :=
  if limit < artifact.sizeBytes then compress artifact else artifact

/-! ### Helper lemmas about the Time-Stretch Engine -/

/-- Evaluation of `change_audio_speed` on a positive rate and a non-empty
waveform. -/
lemma change_audio_speed_eq_ok (a : Audio) (rate : ℚ) (h0 : 0 < rate) (hn : a.samples ≠ 0) :
    change_audio_speed a rate =
      .ok (⟨(round ((a.samples : ℚ) / rate)).toNat, a.sampleRate⟩,
        (((round ((a.samples : ℚ) / rate)).toNat : ℕ) : ℚ) / (a.sampleRate : ℚ)) := by
  unfold change_audio_speed
  rw [if_neg (not_le.mpr h0), if_neg hn]

/-- Inversion of a successful `change_audio_speed` call. -/
lemma change_audio_speed_ok_inv {a : Audio} {rate : ℚ} {out : Audio} {rlen : ℚ}
    (h : change_audio_speed a rate = .ok (out, rlen)) :
    0 < rate ∧ a.samples ≠ 0 ∧
      out = ⟨(round ((a.samples : ℚ) / rate)).toNat, a.sampleRate⟩ ∧
      rlen = ((out.samples : ℕ) : ℚ) / (a.sampleRate : ℚ) := by
  by_cases h1 : rate ≤ 0
  · unfold change_audio_speed at h
    rw [if_pos h1] at h
    exact absurd h (by simp)
  · by_cases h2 : a.samples = 0
    · unfold change_audio_speed at h
      rw [if_neg h1, if_pos h2] at h
      exact absurd h (by simp)
    · rw [change_audio_speed_eq_ok a rate (not_le.mp h1) h2] at h
      simp only [Except.ok.injEq, Prod.mk.injEq] at h
      obtain ⟨ho, hr⟩ := h
      subst ho
      exact ⟨not_le.mp h1, h2, rfl, hr.symm⟩

/-- The 1.10× baseline stretch of a non-empty waveform keeps at least one
sample: `round(n / 1.1) ≥ 1` for `n ≥ 1`. -/
lemma baseline_round_pos (n : ℕ) (hn : n ≠ 0) : 1 ≤ round ((n : ℚ) / (11/10)) := by
  rw [round_eq]
  refine Int.le_floor.mpr ?_
  have h1 : (1 : ℚ) ≤ (n : ℚ) := by exact_mod_cast Nat.one_le_iff_ne_zero.mpr hn
  have h2 : (n : ℚ) / (11/10) = 10 * (n : ℚ) / 11 := by ring
  push_cast
  rw [h2]
  linarith

/-- Writing `round(sr * q)` samples at sample rate `sr ≥ 50` realizes a
duration within 10 ms of `q`. -/
lemma round_toNat_div_near (q : ℚ) (sr : ℕ) (hsr : 50 ≤ sr) (hq : 0 ≤ q) :
    |(((round ((sr : ℚ) * q)).toNat : ℕ) : ℚ) / (sr : ℚ) - q| ≤ 1 / 100 := by
  have hsr0 : (0 : ℚ) < (sr : ℚ) := by
    have h : 0 < sr := lt_of_lt_of_le (by norm_num) hsr
    exact_mod_cast h
  have hr0 : 0 ≤ round ((sr : ℚ) * q) := by
    rw [round_eq]
    refine Int.le_floor.mpr ?_
    have h : 0 ≤ (sr : ℚ) * q := mul_nonneg hsr0.le hq
    push_cast
    linarith
  have hcast : (((round ((sr : ℚ) * q)).toNat : ℕ) : ℚ) = ((round ((sr : ℚ) * q) : ℤ) : ℚ) := by
    exact_mod_cast congrArg (fun z : ℤ => (z : ℚ)) (Int.toNat_of_nonneg hr0)
  rw [hcast]
  have hdiff : ((round ((sr : ℚ) * q) : ℤ) : ℚ) / (sr : ℚ) - q
      = (((round ((sr : ℚ) * q) : ℤ) : ℚ) - (sr : ℚ) * q) / (sr : ℚ) := by
    field_simp
  rw [hdiff, abs_div, abs_of_pos hsr0]
  have hnum : |((round ((sr : ℚ) * q) : ℤ) : ℚ) - (sr : ℚ) * q| ≤ 1 / 2 := by
    rw [abs_sub_comm]
    exact abs_sub_round _
  have h50 : (50 : ℚ) ≤ (sr : ℚ) := by exact_mod_cast hsr
  calc |((round ((sr : ℚ) * q) : ℤ) : ℚ) - (sr : ℚ) * q| / (sr : ℚ)
      ≤ (1/2) / (sr : ℚ) := by gcongr
    _ ≤ (1/2) / 50 := by gcongr
    _ = 1 / 100 := by norm_num

/-- Any appended video clip covers exactly the clipped window
`[start, min stop clipDuration)` and carries a speed factor in `(0, 1]`. -/
lemma processSegment_pair_shape {d : ℚ} {seg : Segment} {synth : Audio} {v : VideoClip} {a : Audio}
    (h : processSegment d seg synth = .pair v a) :
    v.start = seg.start ∧ v.stop = min seg.stop d ∧ 0 < v.speed ∧ v.speed ≤ 1 := by
  simp only [processSegment] at h
  split at h
  next h1 => exact absurd h (by simp)
  next h1 =>
    split at h
    next h2 => exact absurd h (by simp)
    next h2 =>
      split at h
      next e heq => exact absurd h (by simp)
      next fa fl heq =>
        split at h
        next h3 =>
          split at h
          next e heq2 => exact absurd h (by simp)
          next adj rl heq2 =>
            simp only [SegOutcome.pair.injEq] at h
            obtain ⟨hv, ha⟩ := h
            subst hv
            exact ⟨rfl, rfl, one_pos, le_refl 1⟩
        next h3 =>
          have hdur : 0 < min seg.stop d - seg.start := not_le.mp h2
          have hfl : 0 < fl := lt_trans hdur (not_le.mp h3)
          split at h
          next h4 =>
            simp only [SegOutcome.pair.injEq] at h
            obtain ⟨hv, ha⟩ := h
            subst hv
            exact ⟨rfl, rfl, div_pos hdur hfl, le_of_lt h4⟩
          next h4 =>
            simp only [SegOutcome.pair.injEq] at h
            obtain ⟨hv, ha⟩ := h
            subst hv
            exact ⟨rfl, rfl, one_pos, le_refl 1⟩

/-- Claim C7: the stretch operation fails with `InvalidRateError` exactly
when the rate multiplier is `≤ 0`, fails with `EmptyAudioError` exactly when
the rate is positive but the input waveform has zero samples, and succeeds
in every other case. -/
theorem change_audio_speed_error_conditions (a : Audio) (rate : ℚ) :
    (change_audio_speed a rate = .error .invalidRate ↔ rate ≤ 0) ∧
    (change_audio_speed a rate = .error .emptyAudio ↔ 0 < rate ∧ a.samples = 0) ∧
    ((∃ res, change_audio_speed a rate = .ok res) ↔ 0 < rate ∧ a.samples ≠ 0) := by
  by_cases h1 : rate ≤ 0
  · unfold change_audio_speed
    rw [if_pos h1]
    exact ⟨⟨fun _ => h1, fun _ => rfl⟩,
      ⟨fun h => absurd h (by simp), fun h => absurd h1 (not_le.mpr h.1)⟩,
      ⟨fun ⟨res, h⟩ => absurd h (by simp), fun h => absurd h1 (not_le.mpr h.1)⟩⟩
  · have h0 : 0 < rate := not_le.mp h1
    by_cases h2 : a.samples = 0
    · unfold change_audio_speed
      rw [if_neg h1, if_pos h2]
      exact ⟨⟨fun h => absurd h (by simp), fun h => absurd h0 (not_lt.mpr h)⟩,
        ⟨fun _ => ⟨h0, h2⟩, fun _ => rfl⟩,
        ⟨fun ⟨res, h⟩ => absurd h (by simp), fun h => absurd h2 h.2⟩⟩
    · rw [change_audio_speed_eq_ok a rate h0 h2]
      exact ⟨⟨fun h => absurd h (by simp), fun h => absurd h0 (not_lt.mpr h)⟩,
        ⟨fun h => absurd h (by simp), fun h => absurd h.2 h2⟩,
        ⟨fun _ => ⟨h0, h2⟩, fun _ => ⟨_, rfl⟩⟩⟩

/-- Claim C9: the size governor always returns an artifact, returns its
input unchanged when the input is within the limit, and otherwise performs
exactly one re-encode pass — the result is `compress artifact`, delivered
as-is even when it is still over the limit, with no shrink-and-recheck
loop. -/
theorem ensureUnderLimit_single_pass (compress : Artifact → Artifact) (limit : ℕ) (a : Artifact) :
    (a.sizeBytes ≤ limit → ensureUnderLimit compress limit a = a) ∧
    (limit < a.sizeBytes → ensureUnderLimit compress limit a = compress a) := by
  constructor
  · intro h
    unfold ensureUnderLimit
    rw [if_neg (not_lt.mpr h)]
  · intro h
    unfold ensureUnderLimit
    rw [if_pos h]

/-- Concrete run of the size governor: an artifact exactly at `MAX_SIZE` is
delivered unchanged, and an oversized artifact is compressed once and
delivered even though the chosen `compress` leaves it over the limit. -/
theorem ensureUnderLimit_single_pass_witness :
    ensureUnderLimit (fun _ => ⟨MAX_SIZE + 1⟩) MAX_SIZE ⟨MAX_SIZE⟩ = ⟨MAX_SIZE⟩ ∧
    ensureUnderLimit (fun _ => ⟨MAX_SIZE + 1⟩) MAX_SIZE ⟨MAX_SIZE + 1⟩ = ⟨MAX_SIZE + 1⟩ :=
  ⟨(ensureUnderLimit_single_pass (fun _ => ⟨MAX_SIZE + 1⟩) MAX_SIZE ⟨MAX_SIZE⟩).1 (le_refl _),
   (ensureUnderLimit_single_pass (fun _ => ⟨MAX_SIZE + 1⟩) MAX_SIZE ⟨MAX_SIZE + 1⟩).2
     (Nat.lt_succ_self _)⟩

/-- Claim C5: every retained segment appends exactly one video clip and one
audio clip, so whenever the loop completes, the two clip sequences have
equal length and the Timeline Assembler's length-mismatch fault cannot
occur. -/
theorem clip_lists_equal_length (d : ℚ) (xs : List (Segment × Audio)) (vs : List VideoClip)
    (aus : List Audio) (h : processLoop d xs = .ok (vs, aus)) :
    vs.length = aus.length ∧ assemble vs aus = .ok (vs.zip aus) := by
  have hlen : vs.length = aus.length := by
    induction xs generalizing vs aus with
    | nil =>
      simp only [processLoop, Except.ok.injEq, Prod.mk.injEq] at h
      obtain ⟨h1, h2⟩ := h
      subst h1
      subst h2
      rfl
    | cons p rest ih =>
      obtain ⟨seg, au⟩ := p
      simp only [processLoop] at h
      split at h
      · simp only [Except.ok.injEq, Prod.mk.injEq] at h
        obtain ⟨h1, h2⟩ := h
        subst h1
        subst h2
        rfl
      · exact ih vs aus h
      · exact absurd h (by simp)
      next v a hps =>
        split at h
        next e heq => exact absurd h (by simp)
        next vs' aus' heq =>
          simp only [Except.ok.injEq, Prod.mk.injEq] at h
          obtain ⟨h1, h2⟩ := h
          subst h1
          subst h2
          simp [List.length_cons, ih vs' aus' heq]
  refine ⟨hlen, ?_⟩
  unfold assemble
  rw [if_pos hlen]

/-- Concrete run: one retained segment yields one video clip and one audio
clip, and assembly succeeds. -/
theorem clip_lists_equal_length_witness :
    ([⟨0, 5, 5/6⟩] : List VideoClip).length = ([⟨60, 10⟩] : List Audio).length ∧
    assemble [⟨0, 5, 5/6⟩] [⟨60, 10⟩] = .ok [(⟨0, 5, 5/6⟩, ⟨60, 10⟩)] := by
  have h : processLoop 10 [(⟨0, 5, "t"⟩, ⟨66, 10⟩)] = .ok ([⟨0, 5, 5/6⟩], [⟨60, 10⟩]) := by
    norm_num [processLoop, processSegment, change_audio_speed, round_eq]
    try simp
    try norm_num
  exact clip_lists_equal_length 10 [(⟨0, 5, "t"⟩, ⟨66, 10⟩)] [⟨0, 5, 5/6⟩] [⟨60, 10⟩] h

/-- Claim C6: for segments in non-decreasing start order, the retained
clips form an order-preserving subsequence of the input segments: the
start times of the appended video clips are a sublist of the segment start
times, in the same order. -/
theorem order_preserving_subsequence (d : ℚ) (xs : List (Segment × Audio)) (vs : List VideoClip)
    (aus : List Audio)
    (hmono : List.Chain' (· ≤ ·) (xs.map fun p => p.1.start))
    (h : processLoop d xs = .ok (vs, aus)) :
    List.Sublist (vs.map VideoClip.start) (xs.map fun p => p.1.start) := by
  induction xs generalizing vs aus with
  | nil =>
    simp only [processLoop, Except.ok.injEq, Prod.mk.injEq] at h
    obtain ⟨h1, h2⟩ := h
    subst h1
    simp
  | cons p rest ih =>
    obtain ⟨seg, au⟩ := p
    simp only [processLoop] at h
    split at h
    · simp only [Except.ok.injEq, Prod.mk.injEq] at h
      obtain ⟨h1, h2⟩ := h
      subst h1
      simp
    · exact List.Sublist.cons _ (ih vs aus hmono.tail h)
    · exact absurd h (by simp)
    next v a hps =>
      split at h
      next e heq => exact absurd h (by simp)
      next vs' aus' heq =>
        simp only [Except.ok.injEq, Prod.mk.injEq] at h
        obtain ⟨h1, h2⟩ := h
        subst h1
        have hv : v.start = seg.start := (processSegment_pair_shape hps).1
        simp only [List.map_cons, hv]
        exact List.Sublist.cons₂ _ (ih vs' aus' hmono.tail heq)

/-- Concrete run: of two in-order segments the first (degenerate) one is
dropped, and the surviving clip's start time [3] is an order-preserving
subsequence of the segment starts [2, 3]. -/
theorem order_preserving_subsequence_witness :
    List.Sublist [(3 : ℚ)] [(2 : ℚ), 3] := by
  have h : processLoop 10 [(⟨2, 2, "x"⟩, ⟨66, 10⟩), (⟨3, 8, "y"⟩, ⟨66, 10⟩)]
      = .ok ([⟨3, 8, 5/6⟩], [⟨60, 10⟩]) := by
    norm_num [processLoop, processSegment, change_audio_speed, round_eq]
    try simp
    try norm_num
  have hs := order_preserving_subsequence 10
    [(⟨2, 2, "x"⟩, ⟨66, 10⟩), (⟨3, 8, "y"⟩, ⟨66, 10⟩)] [⟨3, 8, 5/6⟩] [⟨60, 10⟩]
    (by simp [List.chain'_cons]; norm_num) h
  exact hs

/-- Claim C3: a segment whose end exceeds the clip duration behaves exactly
as its truncated version (end clipped to the clip duration, duration
recomputed, before any stretch computation); a segment starting at or past
the clip duration stops the loop, discarding it and every later segment;
and a segment whose recomputed duration is non-positive is silently
skipped, the loop continuing with the rest. -/
theorem clipping_skip_cascade (d : ℚ) (seg : Segment) (au : Audio)
    (rest : List (Segment × Audio)) :
    (d ≤ seg.start → processLoop d ((seg, au) :: rest) = .ok ([], [])) ∧
    processSegment d seg au = processSegment d ⟨seg.start, min seg.stop d, seg.text⟩ au ∧
    (seg.start < d → min seg.stop d - seg.start ≤ 0 →
      processLoop d ((seg, au) :: rest) = processLoop d rest) := by
  refine ⟨?_, ?_, ?_⟩
  · intro h1
    have hps : processSegment d seg au = .halt := by
      unfold processSegment
      rw [if_pos h1]
    simp only [processLoop, hps]
  · simp only [processSegment]
    rw [min_assoc, min_self]
  · intro h1 h2
    have hps : processSegment d seg au = .skip := by
      simp only [processSegment]
      rw [if_neg (not_le.mpr h1), if_pos h2]
    simp only [processLoop, hps]

/-- Concrete runs of the three clipping behaviours: a past-end segment
drops itself and its successor, truncation to the clip duration is
behaviour-preserving, and a zero-duration segment is skipped without
error. -/
theorem clipping_skip_cascade_witness :
    processLoop 10 [(⟨12, 14, "x"⟩, ⟨66, 10⟩), (⟨13, 15, "y"⟩, ⟨66, 10⟩)] = .ok ([], []) ∧
    processSegment 10 ⟨3, 12, "z"⟩ ⟨66, 10⟩ = processSegment 10 ⟨3, min 12 10, "z"⟩ ⟨66, 10⟩ ∧
    processLoop 10 [(⟨4, 4, "w"⟩, ⟨66, 10⟩)] = processLoop 10 [] :=
  ⟨(clipping_skip_cascade 10 ⟨12, 14, "x"⟩ ⟨66, 10⟩ [(⟨13, 15, "y"⟩, ⟨66, 10⟩)]).1 (by norm_num),
   (clipping_skip_cascade 10 ⟨3, 12, "z"⟩ ⟨66, 10⟩ []).2.1,
   (clipping_skip_cascade 10 ⟨4, 4, "w"⟩ ⟨66, 10⟩ []).2.2 (by norm_num)
     (by norm_num [min_def])⟩

/-- Evaluation of one segment in Case B (`fast_len > dur`): the audio is
used as-is and the video subclip gets speed factor `slow = dur / fast_len`,
which the guard `slow < 1` always lets through. -/
lemma processSegment_caseB_eq {d : ℚ} {seg : Segment} {synth fa : Audio} {fl : ℚ}
    (hok : change_audio_speed synth (11/10) = .ok (fa, fl))
    (hst : seg.start < d) (hdur : 0 < min seg.stop d - seg.start)
    (hB : min seg.stop d - seg.start < fl) :
    processSegment d seg synth
      = .pair ⟨seg.start, min seg.stop d, (min seg.stop d - seg.start) / fl⟩ fa ∧
    (min seg.stop d - seg.start) / fl < 1 := by
  have hfl : 0 < fl := lt_trans hdur hB
  have hslow : (min seg.stop d - seg.start) / fl < 1 := (div_lt_one hfl).mpr hB
  refine ⟨?_, hslow⟩
  simp only [processSegment, hok]
  rw [if_neg (not_le.mpr hst), if_neg (not_le.mpr hdur), if_neg (not_le.mpr hB), if_pos hslow]

/-- Evaluation of one segment in Case A (`fast_len ≤ dur`, with positive
`fast_len`): the video subclip is unmodified and the 1.10×-sped audio is
stretched a second time at rate `fast_len / dur`. -/
lemma processSegment_caseA_eq {d : ℚ} {seg : Segment} {synth fa : Audio} {fl : ℚ}
    (hok : change_audio_speed synth (11/10) = .ok (fa, fl))
    (hst : seg.start < d) (hdur : 0 < min seg.stop d - seg.start)
    (hA : fl ≤ min seg.stop d - seg.start) (hfl : 0 < fl) :
    processSegment d seg synth = .pair ⟨seg.start, min seg.stop d, 1⟩
      ⟨(round ((fa.samples : ℚ) / (fl / (min seg.stop d - seg.start)))).toNat, fa.sampleRate⟩ := by
  have hrate : 0 < fl / (min seg.stop d - seg.start) := div_pos hfl hdur
  obtain ⟨h0, hn, hfa, hflv⟩ := change_audio_speed_ok_inv hok
  have hm : fa.samples ≠ 0 := by
    intro hz
    rw [hflv, hz] at hfl
    simp at hfl
  simp only [processSegment, hok,
    change_audio_speed_eq_ok fa (fl / (min seg.stop d - seg.start)) hrate hm]
  rw [if_neg (not_le.mpr hst), if_neg (not_le.mpr hdur), if_pos hA]

/-- Claim C1: in Case A the second stretch at rate `fast_len / dur` realizes
an audio clip whose duration is the window duration `dur` to within 10 ms
(for any waveform sampled at at least 50 Hz), and the video subclip is
taken unmodified (speed factor 1) over the clipped window. -/
theorem caseA_window_fit (d : ℚ) (seg : Segment) (synth fa : Audio) (fl : ℚ)
    (hok : change_audio_speed synth (11/10) = .ok (fa, fl))
    (hst : seg.start < d) (hdur : 0 < min seg.stop d - seg.start)
    (hA : fl ≤ min seg.stop d - seg.start) (hsr : 50 ≤ synth.sampleRate) :
    ∃ adj : Audio, processSegment d seg synth = .pair ⟨seg.start, min seg.stop d, 1⟩ adj ∧
      |adj.duration - (min seg.stop d - seg.start)| ≤ 1 / 100 := by
  obtain ⟨h0, hn, hfa, hflv⟩ := change_audio_speed_ok_inv hok
  have hsr0 : (0 : ℚ) < (synth.sampleRate : ℚ) := by
    have h : 0 < synth.sampleRate := lt_of_lt_of_le (by norm_num) hsr
    exact_mod_cast h
  have hm1 : 1 ≤ (round ((synth.samples : ℚ) / (11/10))).toNat := by
    have h := baseline_round_pos synth.samples hn
    omega
  have hms : fa.samples = (round ((synth.samples : ℚ) / (11/10))).toNat := by rw [hfa]
  have hfsr : fa.sampleRate = synth.sampleRate := by rw [hfa]
  have hm0 : fa.samples ≠ 0 := by omega
  have hfl0 : 0 < fl := by
    rw [hflv]
    exact div_pos (by exact_mod_cast Nat.pos_of_ne_zero hm0) hsr0
  refine ⟨_, processSegment_caseA_eq hok hst hdur hA hfl0, ?_⟩
  have hkey : (fa.samples : ℚ) / (fl / (min seg.stop d - seg.start))
      = ((synth.sampleRate : ℕ) : ℚ) * (min seg.stop d - seg.start) := by
    rw [hflv]
    have h1 : (fa.samples : ℚ) ≠ 0 := by exact_mod_cast hm0
    have h2 : ((synth.sampleRate : ℕ) : ℚ) ≠ 0 := ne_of_gt hsr0
    have h3 : (min seg.stop d - seg.start) ≠ 0 := ne_of_gt hdur
    field_simp
  simp only [Audio.duration]
  rw [hkey, hfsr]
  exact round_toNat_div_near (min seg.stop d - seg.start) synth.sampleRate hsr hdur.le

/-- Concrete Case A run: clip duration 10, window [0, 5), baseline-stretched
audio of 2 s at 100 Hz; the re-stretched audio fills the window to within
10 ms and the video subclip is unmodified. -/
theorem caseA_window_fit_witness :
    ∃ adj : Audio, processSegment 10 ⟨0, 5, "w"⟩ ⟨220, 100⟩ = .pair ⟨0, min 5 10, 1⟩ adj ∧
      |adj.duration - (min (5 : ℚ) 10 - 0)| ≤ 1 / 100 :=
  caseA_window_fit 10 ⟨0, 5, "w"⟩ ⟨220, 100⟩ ⟨200, 100⟩ 2
    (by norm_num [change_audio_speed, round_eq]
        try simp
        try norm_num)
    (by norm_num) (by norm_num [min_def]) (by norm_num [min_def]) (by norm_num)

/-- Counterexample to claim C2: clip duration 10, window [0, 5), baseline
audio of 6 s (fastLen = 6 > dur = 5).  The code applies
`MultiplySpeed(factor=5/6)`, and a clip whose playback speed is multiplied
by 5/6 plays *slower*: its visual duration becomes 6 s — equal to the audio
duration — not the claimed shrunk length `dur * slow = 25/6 ≈ 4.17 s`, and
not less than the window duration 5 s. -/
theorem caseB_video_fit_counterexample :
    processSegment 10 ⟨0, 5, "c"⟩ ⟨66, 10⟩ = .pair ⟨0, 5, 5/6⟩ ⟨60, 10⟩ ∧
    VideoClip.duration ⟨0, 5, 5/6⟩ = 6 ∧
    Audio.duration ⟨60, 10⟩ = 6 ∧
    ¬ VideoClip.duration ⟨0, 5, 5/6⟩ < 5 ∧
    VideoClip.duration ⟨0, 5, 5/6⟩ ≠ 5 * (5/6) := by
  refine ⟨?_, by norm_num [VideoClip.duration], by norm_num [Audio.duration],
    by norm_num [VideoClip.duration], by norm_num [VideoClip.duration]⟩
  norm_num [processSegment, change_audio_speed, round_eq]
  try simp
  try norm_num

/-- Claim C2 (amended): in Case B the video subclip's playback speed is
multiplied by `slow = dur / fastLen < 1`, i.e. the video is *slowed down*
so that its visual duration grows from `dur` to `dur / slow = fastLen`,
exactly the audio's duration; the audio is used as-is at duration
`fastLen`. -/
theorem caseB_video_slowed (d : ℚ) (seg : Segment) (synth fa : Audio) (fl : ℚ)
    (hok : change_audio_speed synth (11/10) = .ok (fa, fl))
    (hst : seg.start < d) (hdur : 0 < min seg.stop d - seg.start)
    (hB : min seg.stop d - seg.start < fl) :
    processSegment d seg synth
      = .pair ⟨seg.start, min seg.stop d, (min seg.stop d - seg.start) / fl⟩ fa ∧
    (min seg.stop d - seg.start) / fl < 1 ∧
    VideoClip.duration ⟨seg.start, min seg.stop d, (min seg.stop d - seg.start) / fl⟩ = fl ∧
    fa.duration = fl := by
  obtain ⟨heval, hslow⟩ := processSegment_caseB_eq hok hst hdur hB
  have hfl0 : 0 < fl := lt_trans hdur hB
  refine ⟨heval, hslow, ?_, ?_⟩
  · simp only [VideoClip.duration]
    rw [div_div_eq_mul_div]
    rw [mul_comm]
    exact mul_div_cancel_right₀ fl (ne_of_gt hdur)
  · obtain ⟨h0, hn, hfa, hflv⟩ := change_audio_speed_ok_inv hok
    have hfsr : fa.sampleRate = synth.sampleRate := by rw [hfa]
    simp only [Audio.duration]
    rw [hfsr]
    exact hflv.symm

/-- Concrete Case B run: window [2, 7), fastLen = 6 > dur = 5; the clip is
slowed to speed 5/6 and both final durations equal 6 s exactly. -/
theorem caseB_video_slowed_witness :
    processSegment 10 ⟨2, 7, "b"⟩ ⟨66, 10⟩
      = .pair ⟨2, min 7 10, (min (7 : ℚ) 10 - 2) / 6⟩ ⟨60, 10⟩ ∧
    (min (7 : ℚ) 10 - 2) / 6 < 1 ∧
    VideoClip.duration ⟨2, min 7 10, (min (7 : ℚ) 10 - 2) / 6⟩ = 6 ∧
    Audio.duration ⟨60, 10⟩ = 6 :=
  caseB_video_slowed 10 ⟨2, 7, "b"⟩ ⟨66, 10⟩ ⟨60, 10⟩ 6
    (by norm_num [change_audio_speed, round_eq]
        try simp
        try norm_num)
    (by norm_num) (by norm_num [min_def]) (by norm_num [min_def])

/-- Counterexample to claim C4: window [0, 4), fastLen = 6.  The applied
factor is `slow = 2/3 < 1`, and multiplying playback speed by 2/3 slows the
video down: the clip's visual duration rises from 4 s to 6 s.  The video is
therefore slowed, contradicting "never slowed down — only sped up or left
unchanged". -/
theorem no_video_slowdown_counterexample :
    processSegment 10 ⟨0, 4, "s"⟩ ⟨66, 10⟩ = .pair ⟨0, 4, 2/3⟩ ⟨60, 10⟩ ∧
    (2/3 : ℚ) < 1 ∧
    VideoClip.duration ⟨0, 4, 2/3⟩ = 6 ∧
    (4 : ℚ) < VideoClip.duration ⟨0, 4, 2/3⟩ := by
  refine ⟨?_, by norm_num, by norm_num [VideoClip.duration],
    by norm_num [VideoClip.duration]⟩
  norm_num [processSegment, change_audio_speed, round_eq]
  try simp
  try norm_num

/-- Claim C4 (amended): the factor `slow = dur / fastLen` is always
strictly less than 1 whenever Case B applies — the guard `slow < 1` never
blocks the adjustment — and the video is never *sped up*: every appended
clip's speed factor lies in `(0, 1]`, so the video is only slowed down or
left unchanged. -/
theorem video_never_sped_up (d : ℚ) (seg : Segment) (synth fa : Audio) (fl : ℚ)
    (v : VideoClip) (a : Audio) :
    (processSegment d seg synth = .pair v a → 0 < v.speed ∧ v.speed ≤ 1) ∧
    (change_audio_speed synth (11/10) = .ok (fa, fl) → seg.start < d →
      0 < min seg.stop d - seg.start → min seg.stop d - seg.start < fl →
      (min seg.stop d - seg.start) / fl < 1 ∧
      processSegment d seg synth
        = .pair ⟨seg.start, min seg.stop d, (min seg.stop d - seg.start) / fl⟩ fa) := by
  constructor
  · intro h
    exact ⟨(processSegment_pair_shape h).2.2.1, (processSegment_pair_shape h).2.2.2⟩
  · intro hok hst hdur hB
    obtain ⟨heval, hslow⟩ := processSegment_caseB_eq hok hst hdur hB
    exact ⟨hslow, heval⟩

/-- Concrete run for the amended C4: window [3, 8), fastLen = 6; the
applied factor 5/6 is strictly below 1 and within `(0, 1]`. -/
theorem video_never_sped_up_witness :
    (0 < (min (8 : ℚ) 10 - 3) / 6 ∧ (min (8 : ℚ) 10 - 3) / 6 ≤ 1) ∧
    ((min (8 : ℚ) 10 - 3) / 6 < 1 ∧
      processSegment 10 ⟨3, 8, "v"⟩ ⟨66, 10⟩
        = .pair ⟨3, min 8 10, (min (8 : ℚ) 10 - 3) / 6⟩ ⟨60, 10⟩) := by
  have hok : change_audio_speed ⟨66, 10⟩ (11/10) = .ok (⟨60, 10⟩, 6) := by
    norm_num [change_audio_speed, round_eq]
    try simp
    try norm_num
  have hps : processSegment 10 ⟨3, 8, "v"⟩ ⟨66, 10⟩
      = .pair ⟨3, min 8 10, (min (8 : ℚ) 10 - 3) / 6⟩ ⟨60, 10⟩ := by
    norm_num [processSegment, change_audio_speed, round_eq, min_def]
    try simp
    try norm_num
  exact ⟨(video_never_sped_up 10 ⟨3, 8, "v"⟩ ⟨66, 10⟩ ⟨60, 10⟩ 6
      ⟨3, min 8 10, (min (8 : ℚ) 10 - 3) / 6⟩ ⟨60, 10⟩).1 hps,
    (video_never_sped_up 10 ⟨3, 8, "v"⟩ ⟨66, 10⟩ ⟨60, 10⟩ 6
      ⟨3, min 8 10, (min (8 : ℚ) 10 - 3) / 6⟩ ⟨60, 10⟩).2 hok (by norm_num)
      (by norm_num [min_def]) (by norm_num [min_def])⟩

/-- Claim C10: every rate the resynchronizer passes to the stretch helper
is strictly positive as long as the baseline-stretched duration `fastLen`
is nonzero — the fixed 1.10 baseline and, in Case A, `fastLen / dur` — so
no stretch call can fault; but for a segment whose baseline-stretched audio
has zero duration, Case A is entered (`0 ≤ dur`), the second stretch is
invoked with rate `0 / dur = 0`, and it fails with `InvalidRateError`,
violating the stretch operation's `rate > 0` precondition. -/
theorem stretch_rates_positive (d : ℚ) (seg : Segment) (synth fa : Audio) (fl : ℚ) :
    (0 : ℚ) < 11/10 ∧
    (change_audio_speed synth (11/10) = .ok (fa, fl) → seg.start < d →
      0 < min seg.stop d - seg.start → 0 < fl →
      0 < fl / (min seg.stop d - seg.start) ∧
      ∀ e, processSegment d seg synth ≠ .fault e) ∧
    (change_audio_speed synth (11/10) = .ok (fa, 0) → seg.start < d →
      0 < min seg.stop d - seg.start →
      processSegment d seg synth = .fault .invalidRate) := by
  refine ⟨by norm_num, ?_, ?_⟩
  · intro hok hst hdur hfl0
    refine ⟨div_pos hfl0 hdur, ?_⟩
    intro e
    by_cases hA : fl ≤ min seg.stop d - seg.start
    · rw [processSegment_caseA_eq hok hst hdur hA hfl0]
      simp
    · obtain ⟨heval, _⟩ := processSegment_caseB_eq hok hst hdur (not_le.mp hA)
      rw [heval]
      simp
  · intro hok hst hdur
    have hcs : change_audio_speed fa ((0 : ℚ) / (min seg.stop d - seg.start))
        = .error .invalidRate := by
      rw [zero_div]
      unfold change_audio_speed
      rw [if_pos (le_refl (0 : ℚ))]
    simp only [processSegment, hok, hcs]
    rw [if_neg (not_le.mpr hst), if_neg (not_le.mpr hdur), if_pos hdur.le]

/-- Concrete runs for C10: a normal segment faults on neither stretch call,
and a degenerate waveform whose measured baseline duration is 0 (zero
sample rate) drives the second stretch to rate 0 and an
`InvalidRateError`. -/
theorem stretch_rates_positive_witness :
    ((0 : ℚ) < 11/10 ∧
      0 < (2 : ℚ) / (min (5 : ℚ) 10 - 0) ∧
      processSegment 10 ⟨0, 5, "p"⟩ ⟨220, 100⟩ ≠ .fault .invalidRate) ∧
    processSegment 10 ⟨0, 5, "q"⟩ ⟨5, 0⟩ = .fault .invalidRate := by
  have hok1 : change_audio_speed ⟨220, 100⟩ (11/10) = .ok (⟨200, 100⟩, 2) := by
    norm_num [change_audio_speed, round_eq]
    try simp
    try norm_num
  have hok2 : change_audio_speed ⟨5, 0⟩ (11/10) = .ok (⟨5, 0⟩, 0) := by
    norm_num [change_audio_speed, round_eq]
    try simp
    try norm_num
  have h1 := (stretch_rates_positive 10 ⟨0, 5, "p"⟩ ⟨220, 100⟩ ⟨200, 100⟩ 2).2.1 hok1
    (by norm_num) (by norm_num [min_def]) (by norm_num)
  have h2 := (stretch_rates_positive 10 ⟨0, 5, "q"⟩ ⟨5, 0⟩ ⟨5, 0⟩ 0).2.2 hok2
    (by norm_num) (by norm_num [min_def])
  exact ⟨⟨(stretch_rates_positive 10 ⟨0, 5, "p"⟩ ⟨220, 100⟩ ⟨200, 100⟩ 2).1,
    h1.1, h1.2 .invalidRate⟩, h2⟩

/-- The kinds of per-segment temporary audio files created inside the
segment loop: `mp3` is the gTTS output (line 94), `wavIn` its wav
re-encoding (line 96), `wavFast` the 1.10× stretch output (line 100), and
`wavAdj` the Case A re-stretch output (line 106). -/
inductive TempKind where
  | mp3
  | wavIn
  | wavFast
  | wavAdj
  deriving DecidableEq, Repr

/-- The temporary audio files one loop iteration creates and the ones it
removes (Bot.py lines 94–120), following `processSegment`'s control flow: a
halted or skipped segment creates nothing; a stretch exception leaves every
file created so far behind (the removal loop on lines 118–120 is not
reached, and a raising stretch writes no output file); a retained segment
creates its files and removes exactly `mp3` and `wav_in`. -/
def segmentTempTrace (clipDuration : ℚ) (seg : Segment) (synth : Audio) :
    List TempKind × List TempKind :=
  if clipDuration ≤ seg.start then ([], [])
  else if min seg.stop clipDuration - seg.start ≤ 0 then ([], [])
  else
    match change_audio_speed synth (11/10) with
    | .error _ => ([.mp3, .wavIn], [])
    | .ok (fastAudio, fastLen) =>
      if fastLen ≤ min seg.stop clipDuration - seg.start then
        match change_audio_speed fastAudio
            (fastLen / (min seg.stop clipDuration - seg.start)) with
        | .error _ => ([.mp3, .wavIn, .wavFast], [])
        | .ok _ => ([.mp3, .wavIn, .wavFast, .wavAdj], [.mp3, .wavIn])
      else ([.mp3, .wavIn, .wavFast], [.mp3, .wavIn])

/-- The per-segment temporary audio files still present when the iteration
ends: the ones created but not removed. -/
def segmentLeaked (clipDuration : ℚ) (seg : Segment) (synth : Audio) : List TempKind :=
  (segmentTempTrace clipDuration seg synth).1.filter
    (fun k => decide (k ∉ (segmentTempTrace clipDuration seg synth).2))

/-- How many temporary audio files a run of the segment loop leaves on
disk: each iteration contributes its own leak (files are distinct across
iterations, `tempfile.mktemp` yielding fresh names); a `halt` stops the
loop before that segment creates anything, and a fault stops it right
after its own leak. -/
def loopLeaked (clipDuration : ℚ) : List (Segment × Audio) → ℕ
  | [] => 0
  | (seg, au) :: rest =>
    match processSegment clipDuration seg au with
    | .halt => 0
    | .skip => loopLeaked clipDuration rest
    | .fault _ => (segmentLeaked clipDuration seg au).length
    | .pair _ _ => (segmentLeaked clipDuration seg au).length + loopLeaked clipDuration rest

/-- Counterexample to claim C8: a retained Case B segment leaves its 1.10×
stretch output (`wav_fast`) on disk — only `mp3` and `wav_in` are removed —
and running two such segments leaves two files where one run leaves one:
the set of surviving temporary audio files grows across a multi-segment
run. -/
theorem temp_cleanup_counterexample :
    segmentLeaked 10 ⟨1, 6, "t"⟩ ⟨66, 10⟩ = [.wavFast] ∧
    loopLeaked 10 [(⟨1, 6, "t"⟩, ⟨66, 10⟩)] = 1 ∧
    loopLeaked 10 [(⟨1, 6, "t"⟩, ⟨66, 10⟩), (⟨1, 6, "t"⟩, ⟨66, 10⟩)] = 2 ∧
    ¬ (loopLeaked 10 [(⟨1, 6, "t"⟩, ⟨66, 10⟩), (⟨1, 6, "t"⟩, ⟨66, 10⟩)]
        ≤ loopLeaked 10 [(⟨1, 6, "t"⟩, ⟨66, 10⟩)]) := by
  have htrace : segmentTempTrace 10 ⟨1, 6, "t"⟩ ⟨66, 10⟩
      = ([.mp3, .wavIn, .wavFast], [.mp3, .wavIn]) := by
    norm_num [segmentTempTrace, change_audio_speed, round_eq, min_def]
    try simp
    try norm_num
  have hleak : segmentLeaked 10 ⟨1, 6, "t"⟩ ⟨66, 10⟩ = [.wavFast] := by
    simp [segmentLeaked, htrace]
  have hps : processSegment 10 ⟨1, 6, "t"⟩ ⟨66, 10⟩ = .pair ⟨1, 6, 5/6⟩ ⟨60, 10⟩ := by
    norm_num [processSegment, change_audio_speed, round_eq, min_def]
    try simp
    try norm_num
  refine ⟨hleak, ?_, ?_, ?_⟩ <;> simp [loopLeaked, hps, hleak]

/-- Claim C8 (amended): each retained segment removes exactly the
synthesized mp3 and its wav re-encoding after use; the stretch outputs
(`wav_fast`, plus `wav_adj` in Case A) are never removed, so at least one
temporary audio file survives every retained segment, and each retained
segment adds its own leak to the run's total. -/
theorem temp_cleanup_amended (d : ℚ) (seg : Segment) (au : Audio) (v : VideoClip) (a : Audio)
    (rest : List (Segment × Audio)) (h : processSegment d seg au = .pair v a) :
    (segmentTempTrace d seg au).2 = [.mp3, .wavIn] ∧
    1 ≤ (segmentLeaked d seg au).length ∧
    loopLeaked d ((seg, au) :: rest)
      = (segmentLeaked d seg au).length + loopLeaked d rest := by
  have hloop : loopLeaked d ((seg, au) :: rest)
      = (segmentLeaked d seg au).length + loopLeaked d rest := by
    simp only [loopLeaked, h]
  refine ⟨?_, ?_, hloop⟩ <;>
  · simp only [processSegment] at h
    split at h
    next h1 => exact absurd h (by simp)
    next h1 =>
      split at h
      next h2 => exact absurd h (by simp)
      next h2 =>
        split at h
        next e heq => exact absurd h (by simp)
        next fa fl heq =>
          split at h
          next h3 =>
            split at h
            next e heq2 => exact absurd h (by simp)
            next adj rl heq2 =>
              have htrace : segmentTempTrace d seg au
                  = ([.mp3, .wavIn, .wavFast, .wavAdj], [.mp3, .wavIn]) := by
                simp only [segmentTempTrace, heq, heq2]
                rw [if_neg h1, if_neg h2, if_pos h3]
              simp [segmentLeaked, htrace]
          next h3 =>
            have htrace : segmentTempTrace d seg au
                = ([.mp3, .wavIn, .wavFast], [.mp3, .wavIn]) := by
              simp only [segmentTempTrace, heq]
              rw [if_neg h1, if_neg h2, if_neg h3]
            split at h <;> simp [segmentLeaked, htrace]

/-- Concrete run for the amended C8: a retained Case A segment removes only
`mp3` and `wav_in`, leaving its two stretch outputs behind, and the run's
leak total includes them. -/
theorem temp_cleanup_amended_witness :
    (segmentTempTrace 10 ⟨2, 9, "u"⟩ ⟨66, 10⟩).2 = [.mp3, .wavIn] ∧
    1 ≤ (segmentLeaked 10 ⟨2, 9, "u"⟩ ⟨66, 10⟩).length ∧
    loopLeaked 10 [(⟨2, 9, "u"⟩, ⟨66, 10⟩)]
      = (segmentLeaked 10 ⟨2, 9, "u"⟩ ⟨66, 10⟩).length + loopLeaked 10 [] := by
  have hps : processSegment 10 ⟨2, 9, "u"⟩ ⟨66, 10⟩ = .pair ⟨2, 9, 1⟩ ⟨70, 10⟩ := by
    norm_num [processSegment, change_audio_speed, round_eq, min_def]
    try simp
    try norm_num
    try rfl
  exact temp_cleanup_amended 10 ⟨2, 9, "u"⟩ ⟨66, 10⟩ ⟨2, 9, 1⟩ ⟨70, 10⟩ [] hps
